import Mathlib

/-!
Shallow embedding of the progression / loot-resolution engine of the
rock-card-collector game (src/script.js, final draft, together with the
refactored draft src/unnamed/part_000).

Conventions of the embedding:
* every `Math.random() * 100` draw becomes an explicit rational parameter
  `roll` ranging over `[0, 100)`, and every `Math.random()` used to index a
  list becomes a rational `q` ranging over `[0, 1)` with the JavaScript
  index computation `Math.floor(q * length)` kept verbatim (`jsPick`);
* a JavaScript field that may be `undefined` becomes an `Option`;
* the JavaScript number value NaN (produced by `undefined - 1`) is
  modelled by `JSNum.nan`, and the comparison semantics of `undefined`
  and NaN (`undefined <= 0` and `NaN <= 0` are both false) by `jsLeZero`;
* a JavaScript statement that throws a TypeError is modelled by an
  `Option`/flag result; mutations already performed before the throw are
  kept, as in JavaScript.
-/

namespace RockGame

/-- The six rarity tiers of the game. -/
inductive Rarity where
  | special
  | legendary
  | mythic
  | rare
  | uncommon
  | common
deriving DecidableEq, Repr

/-- RARITY_ORDER (script.js 24-31): canonical iteration order, rarest first. -/
def RARITY_ORDER : List Rarity :=
  [.special, .legendary, .mythic, .rare, .uncommon, .common]

/-- CONVERSION_POINTS (script.js 34-41). -/
def CONVERSION_POINTS : Rarity → Int
  | .common => 1
  | .uncommon => 3
  | .rare => 10
  | .mythic => 30
  | .legendary => 100
  | .special => 0

/-- One entry of PACK_THRESHOLDS. -/
structure PackThreshold where
  name : String
  points : Int
deriving DecidableEq, Repr

/-- PACK_THRESHOLDS (script.js 45-51), best pack first. -/
def PACK_THRESHOLDS : List PackThreshold :=
  [⟨"collector", 1000⟩, ⟨"deluxe", 250⟩, ⟨"advanced", 100⟩, ⟨"explorer", 30⟩, ⟨"basic", 10⟩]

/-- One entry of EXPEDITION_DATA (image/text fields dropped: presentation only). -/
structure ExpData where
  durationMs : Int
  basePack : String
  bonusPack : String
  bonusChance : ℚ
deriving DecidableEq, Repr

/-- EXPEDITION_DATA (script.js 54-85): the three fixed expedition slots. -/
def EXPEDITION_DATA : List ExpData :=
  [⟨5 * 60 * 1000, "basic", "explorer", 5⟩,
   ⟨60 * 60 * 1000, "explorer", "advanced", 5⟩,
   ⟨8 * 60 * 60 * 1000, "advanced", "deluxe", 5⟩]

/-- One entry of the FISHING_REWARDS / SIFTING_REWARDS loot tables. -/
structure LootEntry where
  kind : String
  packType : Option String := none
  region : Option String := none
  message : Option String := none
  chance : ℚ
deriving DecidableEq, Repr

/-- FISHING_REWARDS (script.js 89-95), rarest first. -/
def FISHING_REWARDS : List LootEntry :=
  [{ kind := "pack", packType := some "advanced", chance := 1 },
   { kind := "pack", packType := some "explorer", chance := 4 },
   { kind := "pack", packType := some "basic", chance := 35 },
   { kind := "card", region := some "riverbed", chance := 30 },
   { kind := "none", message := some "An old boot...", chance := 30 }]

/-- SIFTING_REWARDS (script.js 142-148), rarest first. -/
def SIFTING_REWARDS : List LootEntry :=
  [{ kind := "pack", packType := some "advanced", chance := 1 },
   { kind := "pack", packType := some "explorer", chance := 4 },
   { kind := "pack", packType := some "basic", chance := 35 },
   { kind := "card", region := some "desert", chance := 30 },
   { kind := "none", message := some "Just sand...", chance := 30 }]

/-- WILD_RARITY_CHANCE (script.js 99-105), rarest first. -/
def WILD_RARITY_CHANCE : List (Rarity × ℚ) :=
  [(.legendary, 1/5), (.mythic, 1/2), (.rare, 93/10), (.uncommon, 20), (.common, 70)]

/-- UNLOCK_GOALS.FOIL.value (script.js 108-112). -/
def UNLOCK_GOALS_FOIL : Nat := 50

/-- UNLOCK_GOALS.ALT_ART_1.value. -/
def UNLOCK_GOALS_ALT_ART_1 : Nat := 100

/-- UNLOCK_GOALS.ALT_ART_2.value. -/
def UNLOCK_GOALS_ALT_ART_2 : Nat := 200

/-- VARIANT_RATES.FOIL_CHANCE (script.js 116). -/
def FOIL_CHANCE : ℚ := 1

/-- VARIANT_RATES.ART_CHANCES.LOCKED, as (base, alt1, alt2) percentages. -/
def ART_CHANCES_LOCKED : ℚ × ℚ × ℚ := (100, 0, 0)

/-- VARIANT_RATES.ART_CHANCES.ALT_1_UNLOCKED. -/
def ART_CHANCES_ALT_1 : ℚ × ℚ × ℚ := (99, 1, 0)

/-- VARIANT_RATES.ART_CHANCES.ALT_2_UNLOCKED. -/
def ART_CHANCES_ALT_2 : ℚ × ℚ × ℚ := (98, 1, 1)

/-- A JavaScript number that is either an integer or NaN (NaN arises in this
code base from `undefined - 1` on a missing pack-inventory key). -/
inductive JSNum where
  | num : Int → JSNum
  | nan : JSNum
deriving DecidableEq, Repr

/-- JavaScript `x <= 0` where `x` may be a missing property (`undefined`):
both `undefined <= 0` and `NaN <= 0` evaluate to false. -/
def jsLeZero : Option JSNum → Bool
  | some (.num n) => decide (n ≤ 0)
  | _ => false

/-- JavaScript `x - 1` where `x` may be `undefined`: `undefined - 1` is NaN. -/
def jsSub1 : Option JSNum → JSNum
  | some (.num n) => .num (n - 1)
  | _ => .nan

/-- JavaScript `x + m` where `x` may be `undefined` or NaN. -/
def jsAdd : Option JSNum → Int → JSNum
  | some (.num n), m => .num (n + m)
  | _, _ => .nan

/-- JavaScript property read `obj[k]` on an object modelled as an
association list: the value at the first occurrence of the key, or
`undefined` (`none`) when the property is absent. -/
def jsGet {κ β : Type} [DecidableEq κ] : List (κ × β) → κ → Option β
  | [], _ => none
  | (a, v) :: rest, k => if a = k then some v else jsGet rest k

/-- JavaScript property assignment `obj[k] = v` on an object modelled as an
association list: overwrites the first occurrence, or creates the property
(at the end, matching JS insertion order) when absent. -/
def jsSetNum : List (String × JSNum) → String → JSNum → List (String × JSNum)
  | [], k, v => [(k, v)]
  | (k', v') :: rest, k, v =>
    if k' = k then (k, v) :: rest else (k', v') :: jsSetNum rest k v

/-- JavaScript `list[Math.floor(q * list.length)]` for a uniform draw
`q ∈ [0,1)`; indexing out of range yields `undefined` (`none`). -/
def jsPick {α : Type} (l : List α) (q : ℚ) : Option α :=
  l[(⌊q * l.length⌋).toNat]?

/-- JavaScript `now >= ts` where `ts` may be `undefined` (always false then). -/
def jsGeOpt (now : Int) (ts : Option Int) : Bool :=
  match ts with
  | some t => decide (t ≤ now)
  | none => false

/-- The cumulative-probability loop shared by getRandomRarity (script.js
1017-1038), getWeightedRandom (part_000 192-221), generateFishingReward and
generateSiftingReward: walk the (value, weight) list accumulating weights
and return the first value whose cumulative weight strictly exceeds the
roll, `none` when no entry does. -/
def weightedLoop {α : Type} (roll : ℚ) (cum : ℚ) : List (α × ℚ) → Option α
  | [] => none
  | (v, w) :: rest => if roll < cum + w then some v else weightedLoop roll (cum + w) rest

/-- getWeightedRandom (part_000 192-221) on an already-normalised pool:
the cumulative loop followed by the "return the last entry" failsafe for
tables not summing to 100.  An empty pool gives `none` (the JS code would
throw reading `.value` of `undefined`). -/
def getWeightedRandomList {α : Type} (pool : List (α × ℚ)) (roll : ℚ) : Option α :=
  match weightedLoop roll 0 pool with
  | some v => some v
  | none => pool.getLast?.map Prod.fst

/-- `packRules[rarity] || 0` (script.js 1024): missing entries count as 0. -/
def lookupChance (packRules : List (Rarity × ℚ)) (r : Rarity) : ℚ :=
  match jsGet packRules r with
  | some c => c
  | none => 0

/-- getRandomRarity (script.js 1017-1038): iterate RARITY_ORDER rarest to
commonest accumulating the pack's chances; failsafe is the last element of
RARITY_ORDER, i.e. common. -/
def getRandomRarity (packRules : List (Rarity × ℚ)) (roll : ℚ) : Rarity :=
  match weightedLoop roll 0 (RARITY_ORDER.map (fun r => (r, lookupChance packRules r))) with
  | some r => r
  | none => Rarity.common

/-- The pool normalisation getWeightedRandom performs for pack-rules input
(part_000 196-203): iterate RARITY_ORDER and keep the truthy (non-zero)
entries. -/
def packRulesPool (packRules : List (Rarity × ℚ)) : List (Rarity × ℚ) :=
  RARITY_ORDER.filterMap (fun r =>
    match jsGet packRules r with
    | some c => if c = 0 then none else some (r, c)
    | none => none)

/-- Running sum of the weights of the first `n` pool entries. -/
def takeSum {α : Type} (pool : List (α × ℚ)) (n : Nat) : ℚ :=
  ((pool.take n).map Prod.snd).sum

/-- A card definition from cards.json: name, rarity, home region. -/
structure CardDef where
  cname : String
  rarity : Rarity
  region : String
deriving DecidableEq, Repr

/-- The two unlock-rule kinds appearing in regions.json. -/
inductive UnlockType where
  | packs
  | unique
deriving DecidableEq, Repr

/-- A region definition from regions.json: its unlock rule. -/
structure RegionDef where
  unlockType : UnlockType
  value : Nat
deriving DecidableEq, Repr

/-- One stacked inventory entry ({cardId, art, foil, count}).  `art` and
`foil` are `Option` because entries created by the fishing / sifting
card-grant path have these fields `undefined`. -/
structure InvCard where
  cardId : Option String
  art : Option Nat
  foil : Option String
  count : Int
deriving DecidableEq, Repr

/-- The shape addCardsToInventory reads from each element of its input:
cardId, art and foil (any other field, such as the `variant` the fishing
branch supplies, is ignored by it). -/
structure NewCard where
  cardId : Option String
  art : Option Nat
  foil : Option String
deriving DecidableEq, Repr

/-- One card of the reveal payload built by openPack. -/
structure RevealCard where
  cardId : Option String
  art : Nat
  foil : String
  isNew : Bool
deriving DecidableEq, Repr

/-- One entry of the ephemeral conversionSelection list. -/
structure SelEntry where
  cardId : Option String
  art : Option Nat
  foil : Option String
  count : Int
deriving DecidableEq, Repr

/-- An expedition reward payload ({type:"pack", packType, count}). -/
structure Reward where
  rkind : String
  packType : String
  count : Nat
deriving DecidableEq, Repr

/-- The status field of an expedition slot. -/
inductive ExpStatus where
  | empty
  | out
  | complete
deriving DecidableEq, Repr

/-- One expedition slot object.  `region` is a field no code in the
repository ever assigns (it is always `undefined` = `none` on every
reachable slot); it is kept here because script.js onGameTick reads
`exp.region`. -/
structure ExpSlot where
  status : ExpStatus
  slotIndex : Option Nat := none
  endTs : Option Int := none
  rewards : Option Reward := none
  region : Option Nat := none
deriving DecidableEq, Repr

/-- gameState.player. -/
structure Player where
  packsOpened : Nat
  uniquesOwned : Nat
  packsInventory : List (String × JSNum)
deriving DecidableEq, Repr

/-- The parts of gameState the specified core reads and writes (the museum
section is presentation-only and never touched by the core operations). -/
structure GameState where
  player : Player
  inventory : List InvCard
  expeditions : List ExpSlot
deriving DecidableEq, Repr

/-- getUniqueCardCount (script.js 365-374): number of distinct cardId
values in the inventory, variants ignored. -/
def getUniqueCardCount (inv : List InvCard) : Nat :=
  (inv.map (·.cardId)).dedup.length

/-- The unlock condition checked per region by getUnlockedRegions. -/
def regionUnlocked (packs uniques : Nat) (rd : RegionDef) : Bool :=
  match rd.unlockType with
  | .packs => decide (rd.value ≤ packs)
  | .unique => decide (rd.value ≤ uniques)

/-- getUnlockedRegions (script.js 380-399): region ids whose unlock rule is
met by the current progression counters. -/
def getUnlockedRegions (regions : List (String × RegionDef)) (st : GameState) : List String :=
  (regions.filter (fun p =>
    regionUnlocked st.player.packsOpened (getUniqueCardCount st.inventory) p.2)).map Prod.fst

/-- isCardIdNew (script.js 407-411): true iff no inventory entry has this
cardId, variants ignored. -/
def isCardIdNew (inv : List InvCard) (cardId : Option String) : Bool :=
  ! inv.any (fun c => decide (c.cardId = cardId))

/-- The body of addCardsToInventory for a single card (script.js 1171-1193):
find the first entry matching on cardId, art AND foil and increment its
count, else push a fresh entry with count 1 at the end. -/
def incFirstMatch : List InvCard → NewCard → List InvCard
  | [], c => [⟨c.cardId, c.art, c.foil, 1⟩]
  | e :: rest, c =>
    if e.cardId = c.cardId ∧ e.art = c.art ∧ e.foil = c.foil then
      { e with count := e.count + 1 } :: rest
    else
      e :: incFirstMatch rest c

/-- addCardsToInventory (script.js 1168-1197): stack every new card, then
recompute player.uniquesOwned. -/
def addCardsToInventory (st : GameState) (newCards : List NewCard) : GameState :=
  let inv := newCards.foldl incFirstMatch st.inventory
  { st with inventory := inv,
            player := { st.player with uniquesOwned := getUniqueCardCount inv } }

/-- addPackToInventory (script.js 1221-1232): guarded by hasOwnProperty, so
an unknown pack type leaves the inventory unchanged. -/
def addPackToInventory (st : GameState) (packType : String) (count : Int) : GameState :=
  match jsGet st.player.packsInventory packType with
  | some v =>
    { st with player := { st.player with
        packsInventory := jsSetNum st.player.packsInventory packType (jsAdd (some v) count) } }
  | none => st

/-- The card-grant branch shared by reelInFish (script.js 1666-1676) and
endSiftingGame (script.js 1913-1919):
`addCardsToInventory([{ cardId, variant: "normal" }])`.  The object passed
has no art and no foil field (both `undefined` = `none`), and its `variant`
field is not read by addCardsToInventory. -/
def grantMinigameCard (st : GameState) (cardId : Option String) : GameState :=
  addCardsToInventory st [{ cardId := cardId, art := none, foil := none }]

/-- The candidate set of getRandomCardOfRarity (script.js 1071-1075):
catalog entries of the requested rarity whose region is unlocked. -/
def rarityCandidates (cards : List (String × CardDef)) (regions : List (String × RegionDef))
    (st : GameState) (rarity : Rarity) : List (String × CardDef) :=
  cards.filter (fun p =>
    decide (p.2.rarity = rarity ∧ p.2.region ∈ getUnlockedRegions regions st))

/-- The fallback candidate set of getRandomCardOfRarity (script.js
1084-1087): common-rarity catalog entries whose region is unlocked. -/
def commonFallback (cards : List (String × CardDef)) (regions : List (String × RegionDef))
    (st : GameState) : List (String × CardDef) :=
  cards.filter (fun p =>
    decide (p.2.rarity = Rarity.common ∧ p.2.region ∈ getUnlockedRegions regions st))

/-- getRandomCardOfRarity, final region-aware definition (script.js
1063-1098, part_000 632-648): uniform pick among the candidates, falling
back to the unlocked commons when the candidate set is empty (an empty
fallback yields `undefined` = `none`). -/
def getRandomCardOfRarity (cards : List (String × CardDef))
    (regions : List (String × RegionDef)) (st : GameState) (rarity : Rarity)
    (q : ℚ) : Option String :=
  if rarityCandidates cards regions st rarity = [] then
    (jsPick (commonFallback cards regions st) q).map Prod.fst
  else
    (jsPick (rarityCandidates cards regions st rarity) q).map Prod.fst

/-- The random draws consumed for one card of a pack: the rarity roll in
[0,100), the card-pick draw in [0,1), the foil roll in [0,100) (consumed
only when foil is unlocked) and the art roll in [0,100). -/
structure CardRolls where
  rarityRoll : ℚ
  pickRoll : ℚ
  foilRoll : ℚ
  artRoll : ℚ
deriving DecidableEq, Repr

/-- The per-card body of openPack's generation loop (script.js 968-993). -/
def genCard (cards : List (String × CardDef)) (regions : List (String × RegionDef))
    (st : GameState) (packRules : List (Rarity × ℚ)) (foilUnlocked : Bool)
    (artChances : ℚ × ℚ × ℚ) (r : CardRolls) : RevealCard :=
  let rarity := getRandomRarity packRules r.rarityRoll
  let cardId := getRandomCardOfRarity cards regions st rarity r.pickRoll
  let newFlag := isCardIdNew st.inventory cardId
  let foilType := if foilUnlocked && decide (r.foilRoll < FOIL_CHANCE) then "foil" else "normal"
  let artType : Nat :=
    if r.artRoll < artChances.2.2 then 2
    else if r.artRoll < artChances.2.1 + artChances.2.2 then 1
    else 0
  ⟨cardId, artType, foilType, newFlag⟩

/-- openPack (script.js 939-1009).  Note the source order: the pack count is
decremented **before** the pack-rules lookup, with no hasOwnProperty guard,
so an unknown pack type still gets its inventory entry written
(`undefined - 1` = NaN).  Unlock flags read the progression counters as
stored (packsOpened is incremented only at the end; uniquesOwned is the
cached value). -/
def openPack (cards : List (String × CardDef)) (regions : List (String × RegionDef))
    (packsData : List (String × List (Rarity × ℚ))) (st : GameState) (packType : String)
    (r1 r2 r3 : CardRolls) : GameState × List RevealCard :=
  if jsLeZero (jsGet st.player.packsInventory packType) then (st, [])
  else
    let st1 : GameState :=
      { st with player := { st.player with
          packsInventory := jsSetNum st.player.packsInventory packType
            (jsSub1 (jsGet st.player.packsInventory packType)) } }
    match jsGet packsData packType with
    | none => (st1, [])
    | some packRules =>
      let foilUnlocked := decide (UNLOCK_GOALS_FOIL ≤ st1.player.packsOpened)
      let alt1Unlocked := decide (UNLOCK_GOALS_ALT_ART_1 ≤ st1.player.uniquesOwned)
      let alt2Unlocked := decide (UNLOCK_GOALS_ALT_ART_2 ≤ st1.player.uniquesOwned)
      let artChances :=
        if alt2Unlocked then ART_CHANCES_ALT_2
        else if alt1Unlocked then ART_CHANCES_ALT_1
        else ART_CHANCES_LOCKED
      let newCards :=
        [genCard cards regions st1 packRules foilUnlocked artChances r1,
         genCard cards regions st1 packRules foilUnlocked artChances r2,
         genCard cards regions st1 packRules foilUnlocked artChances r3]
      let st2 := addCardsToInventory st1
        (newCards.map (fun c => ⟨c.cardId, some c.art, some c.foil⟩))
      let st3 := { st2 with player := { st2.player with
        packsOpened := st2.player.packsOpened + 1 } }
      (st3, newCards)

/-- generateExpeditionRewards (script.js 1439-1457).  The argument is
`Option Nat` because script.js onGameTick passes `exp.region`, a field no
expedition object ever carries; `EXPEDITION_DATA[undefined]` is `undefined`
and reading `.basePack` from it throws a TypeError, modelled by `none`. -/
def generateExpeditionRewards (slotIndex : Option Nat) (roll : ℚ) : Option Reward :=
  match slotIndex with
  | none => none
  | some i =>
    match EXPEDITION_DATA[i]? with
    | none => none
    | some d => some ⟨"pack", if roll < d.bonusChance then d.bonusPack else d.basePack, 1⟩

/-- The forEach body of checkAllExpeditions (script.js 1276-1289) for the
slot at index `i`: an `out` slot whose end timestamp has passed is set to
`complete` and gets `generateExpeditionRewards(index)`.  The returned flag
records whether the reward generation threw (status already mutated at
that point, as in JS). -/
def checkExpeditionSlot (now : Int) (i : Nat) (roll : ℚ) (exp : ExpSlot) : ExpSlot × Bool :=
  if exp.status = .out ∧ jsGeOpt now exp.endTs then
    match generateExpeditionRewards (some i) roll with
    | some r => ({ exp with status := .complete, rewards := some r }, false)
    | none => ({ exp with status := .complete }, true)
  else (exp, false)

/-- The forEach body of onGameTick (script.js 1243-1271) for one slot: same
expiry test (`endTs - now <= 0`), but the reward call is
`generateExpeditionRewards(exp.region)` — not the slot index.  The flag
records whether reward generation threw after the status was already set
to `complete`. -/
def onGameTickSlot (now : Int) (roll : ℚ) (exp : ExpSlot) : ExpSlot × Bool :=
  if exp.status = .out then
    match exp.endTs with
    | none => (exp, false)
    | some ts =>
      if ts - now ≤ 0 then
        match generateExpeditionRewards exp.region roll with
        | some r => ({ exp with status := .complete, rewards := some r }, false)
        | none => ({ exp with status := .complete }, true)
      else (exp, false)
  else (exp, false)

/-- startExpedition (script.js 1385-1398, part_000 770-775): NO precondition
check on the slot's current status; the slot object is replaced outright.
`none` models the TypeError on an out-of-range slot index
(`EXPEDITION_DATA[slotIndex].durationMs` of `undefined`). -/
def startExpedition (now : Int) (slotIndex : Nat) (exps : List ExpSlot) :
    Option (List ExpSlot) :=
  match EXPEDITION_DATA[slotIndex]? with
  | none => none
  | some d =>
    some (exps.set slotIndex
      { status := .out, slotIndex := some slotIndex, endTs := some (now + d.durationMs) })

/-- The (cardId, art, foil) identity key of an inventory entry. -/
def invKey (e : InvCard) : Option String × Option Nat × Option String :=
  (e.cardId, e.art, e.foil)

/-- The (cardId, art, foil) identity key of a selection entry. -/
def selKey (s : SelEntry) : Option String × Option Nat × Option String :=
  (s.cardId, s.art, s.foil)

/-- Update the first selection entry whose key is `k` (the entry
`Array.prototype.find` returns and the JS code then mutates). -/
def updFirstSel (sel : List SelEntry) (k : Option String × Option Nat × Option String)
    (f : SelEntry → SelEntry) : List SelEntry :=
  match sel with
  | [] => []
  | s :: rest => if selKey s = k then f s :: rest else s :: updFirstSel rest k f

/-- toggleCardForConversion (script.js 2078-2109): guard on the owned count
(`availableCount = count - 1`, non-positive rejected), then add a 1-copy
selection entry, increment it while below the cap, or drop it once the cap
is reached. -/
def toggleCardForConversion (inv : List InvCard) (sel : List SelEntry)
    (k : Option String × Option Nat × Option String) : List SelEntry :=
  match inv.find? (fun e => decide (invKey e = k)) with
  | none => sel
  | some playerCard =>
    if playerCard.count - 1 ≤ 0 then sel
    else
      match sel.find? (fun s => decide (selKey s = k)) with
      | none => sel ++ [⟨k.1, k.2.1, k.2.2, 1⟩]
      | some entry =>
        if entry.count < playerCard.count - 1 then
          updFirstSel sel k (fun s => { s with count := s.count + 1 })
        else
          (updFirstSel sel k (fun s => { s with count := 0 })).filter
            (fun s => decide (0 < s.count))

/-- The loop of updateConversionSummary / confirmConversion over
PACK_THRESHOLDS (script.js 2125-2130, 2155-2160): first threshold the
points meet or exceed. -/
def bestRewardLoop (points : Int) : List PackThreshold → Option PackThreshold
  | [] => none
  | p :: rest => if p.points ≤ points then some p else bestRewardLoop points rest

/-- bestReward: the first (hence highest) PACK_THRESHOLDS entry whose
threshold the point total meets, `none` below the lowest threshold. -/
def bestReward (points : Int) : Option PackThreshold :=
  bestRewardLoop points PACK_THRESHOLDS

/-- The threshold of a bestReward result, with `none` mapped below every
real threshold. -/
def thresholdValue : Option PackThreshold → Int
  | none => 0
  | some p => p.points

/-- The conversion point total of a selection (script.js 2149-2153).
`none` models the TypeError thrown when a selected cardId is absent from
the card catalog (`allCardsData[card.cardId].rarity` of `undefined`). -/
def selectionPoints (cards : List (String × CardDef)) : List SelEntry → Option Int
  | [] => some 0
  | s :: rest =>
    match s.cardId.bind (fun cid => jsGet cards cid) with
    | none => none
    | some d =>
      match selectionPoints cards rest with
      | none => none
      | some p => some (CONVERSION_POINTS d.rarity * s.count + p)

/-- The decrement step of confirmConversion for one selection entry
(script.js 2169-2178): find the first inventory entry with the same
(cardId, art, foil) key and subtract the selected count from it. -/
def decFirstMatch : List InvCard → SelEntry → List InvCard
  | [], _ => []
  | e :: rest, s =>
    if e.cardId = s.cardId ∧ e.art = s.art ∧ e.foil = s.foil then
      { e with count := e.count - s.count } :: rest
    else
      e :: decFirstMatch rest s

/-- confirmConversion (script.js 2144-2192): recompute the points, abort if
no threshold is reached (or the points computation throws), otherwise
decrement every selected entry, grant one pack of the reward type and
clear the selection. -/
def confirmConversion (cards : List (String × CardDef)) (st : GameState)
    (sel : List SelEntry) : GameState × List SelEntry :=
  match selectionPoints cards sel with
  | none => (st, sel)
  | some pts =>
    match bestReward pts with
    | none => (st, sel)
    | some pack =>
      let inv := sel.foldl decFirstMatch st.inventory
      (addPackToInventory { st with inventory := inv } pack.name 1, [])

/-- Validity of a conversion selection against an inventory: pairwise
distinct keys, and every entry backed by a first-matching inventory entry
with at least `count + 1` copies (the `ownedCount - 1` cap). -/
def SelValid (inv : List InvCard) (sel : List SelEntry) : Prop :=
  (sel.map selKey).Nodup ∧
  ∀ s ∈ sel, ∃ m, inv.find? (fun e => decide (invKey e = selKey s)) = some m ∧
    1 ≤ s.count ∧ s.count + 1 ≤ m.count

/-- A one-card, one-region test catalog: cards.json fragment. -/
def testCatalog : List (String × CardDef) :=
  [("rock-001", ⟨"River Pebble", .common, "riverbed"⟩)]

/-- regions.json fragment: the starter region, unlocked at 0 packs. -/
def testRegions : List (String × RegionDef) :=
  [("riverbed", ⟨.packs, 0⟩)]

/-- packs.json fragment: a basic pack that is 100% common. -/
def testPacks : List (String × List (Rarity × ℚ)) :=
  [("basic", [(.common, 100)])]

/-- The pack inventory of a fresh save (script.js 314-320). -/
def freshPacksInventory : List (String × JSNum) :=
  [("basic", .num 5), ("explorer", .num 0), ("advanced", .num 0),
   ("deluxe", .num 0), ("collector", .num 0)]

/-- The fresh game state created by loadState when no save exists
(script.js 310-331), restricted to the fields of the core. -/
def freshState : GameState :=
  { player := { packsOpened := 0, uniquesOwned := 0, packsInventory := freshPacksInventory },
    inventory := [],
    expeditions := [{ status := .empty }, { status := .empty }, { status := .empty }] }

/-- A fixed roll record used by concrete evaluations: rarity roll 50,
pick draw 0, foil roll 50, art roll 50. -/
def midRolls : CardRolls := ⟨50, 0, 50, 50⟩

/-- A state owning twelve copies of the base-art normal rock-001. -/
def dupState : GameState :=
  { player := { packsOpened := 0, uniquesOwned := 1, packsInventory := freshPacksInventory },
    inventory := [⟨some "rock-001", some 0, some "normal", 12⟩],
    expeditions := [{ status := .empty }, { status := .empty }, { status := .empty }] }

/-- Pointwise relation between an inventory and its original: keys are
unchanged and each entry is either untouched or was a multi-copy entry
(count at least 2) whose count stayed between 1 and its original value. -/
def InvRel (inv0 inv : List InvCard) : Prop :=
  ∀ (i : Nat) (e0 : InvCard), inv0[i]? = some e0 → ∃ e, inv[i]? = some e ∧ invKey e = invKey e0 ∧
    (e = e0 ∨ (2 ≤ e0.count ∧ 1 ≤ e.count ∧ e.count ≤ e0.count))

/-- C1: load-time catch-up (checkAllExpeditions) and onGameTick are claimed
to apply identical transition and reward-resolution logic to an expired
slot.  They do not: for the slot started in slot 0 at t=0
({status:"out", slotIndex:0, endTs:300000}), the load-time pass at ten
times the duration resolves status `complete` with a pack reward drawn
from the slot's configured packs, while a single onGameTick at the expiry
instant reads `exp.region` — a field no expedition object ever has — so
generateExpeditionRewards throws after the status was already set,
leaving a `complete` slot with no reward: the two results differ. -/
theorem C1_tick_load_divergence :
    checkExpeditionSlot 3000000 0 50
        { status := .out, slotIndex := some 0, endTs := some 300000 } =
      ({ status := .complete, slotIndex := some 0, endTs := some 300000,
         rewards := some ⟨"pack", "basic", 1⟩ }, false) ∧
    onGameTickSlot 300000 50
        { status := .out, slotIndex := some 0, endTs := some 300000 } =
      ({ status := .complete, slotIndex := some 0, endTs := some 300000 }, true) ∧
    ({ status := .complete, slotIndex := some 0, endTs := some 300000,
       rewards := some ⟨"pack", "basic", 1⟩ } : ExpSlot) ≠
      { status := .complete, slotIndex := some 0, endTs := some 300000 } := by
  decide

/-- C2: openPack on an unknown pack type is claimed to abort with no state
mutation.  Evaluating the code on a fresh save with packType "seasonal"
(absent from the pack catalog): no cards are produced and packsOpened and
the card inventory are untouched, but the pack inventory IS mutated — the
decrement runs before the missing-rules check and writes a NaN entry for
the unknown key, so the resulting state differs from the original. -/
theorem C2_unknown_pack_mutates :
    (openPack testCatalog testRegions testPacks freshState "seasonal"
        midRolls midRolls midRolls).2 = [] ∧
    jsGet (openPack testCatalog testRegions testPacks freshState "seasonal"
        midRolls midRolls midRolls).1.player.packsInventory "seasonal" = some .nan ∧
    jsGet freshState.player.packsInventory "seasonal" = none ∧
    (openPack testCatalog testRegions testPacks freshState "seasonal"
        midRolls midRolls midRolls).1.inventory = freshState.inventory ∧
    (openPack testCatalog testRegions testPacks freshState "seasonal"
        midRolls midRolls midRolls).1.player.packsOpened = freshState.player.packsOpened ∧
    (openPack testCatalog testRegions testPacks freshState "seasonal"
        midRolls midRolls midRolls).1 ≠ freshState := by
  decide

/-- C3 counterexample: the claim says startExpedition on a non-empty slot
is rejected as a no-op.  On a one-slot list holding a `complete` slot with
an attached reward, startExpedition(0) at now=0 overwrites the slot with a
fresh `out` state and discards the reward — the slot is not unchanged. -/
theorem C3_counterexample :
    startExpedition 0 0 [{ status := .complete, rewards := some ⟨"pack", "basic", 1⟩ }] =
      some [{ status := .out, slotIndex := some 0, endTs := some 300000 }] ∧
    ([{ status := .out, slotIndex := some 0, endTs := some 300000 }] : List ExpSlot) ≠
      [{ status := .complete, rewards := some ⟨"pack", "basic", 1⟩ }] := by
  decide

/-- C3 (amended): startExpedition performs no precondition check at all —
for every prior slot state it unconditionally replaces the slot at a valid
index with {status:"out", slotIndex, endTs: now + duration(slotIndex)},
discarding any attached reward; non-empty slots are protected only by the
UI never rendering a Start button for them. -/
theorem C3_start_overwrites (exps : List ExpSlot) (i : Nat) (now : Int)
    (hi : i < EXPEDITION_DATA.length) (_hlen : i < exps.length) :
    ∃ d, EXPEDITION_DATA[i]? = some d ∧
      startExpedition now i exps =
        some (exps.set i
          { status := .out, slotIndex := some i, endTs := some (now + d.durationMs) }) := by
  refine ⟨EXPEDITION_DATA[i], List.getElem?_eq_getElem hi, ?_⟩
  unfold startExpedition
  rw [List.getElem?_eq_getElem hi]

/-- Witness for C3_start_overwrites at slot 1 of a three-slot list. -/
theorem C3_witness :
    (1 < EXPEDITION_DATA.length ∧
      1 < ([{ status := .empty }, { status := .empty }, { status := .empty }] :
        List ExpSlot).length) ∧
    ∃ d, EXPEDITION_DATA[1]? = some d ∧
      startExpedition 0 1 [{ status := .empty }, { status := .empty }, { status := .empty }] =
        some ([{ status := .empty }, { status := .empty }, { status := .empty }].set 1
          { status := .out, slotIndex := some 1, endTs := some (0 + d.durationMs) }) :=
  ⟨⟨by decide, by decide⟩,
   C3_start_overwrites [{ status := .empty }, { status := .empty }, { status := .empty }]
     1 0 (by decide) (by decide)⟩

unseal Rat.mul Rat.add Rat.inv Rat.sub in
/-- C4 counterexample: the claim says a never-before-owned card id drawn
more than once in one batch carries the new-card flag at most once.  On a
fresh save with a one-card catalog, opening a basic pack draws rock-001
three times; rock-001 was never owned, yet all three copies carry
isNew = true — more than one duplicate copy is flagged. -/
theorem C4_counterexample :
    (openPack testCatalog testRegions testPacks freshState "basic"
        midRolls midRolls midRolls).2.map (fun c => c.cardId) =
      [some "rock-001", some "rock-001", some "rock-001"] ∧
    (openPack testCatalog testRegions testPacks freshState "basic"
        midRolls midRolls midRolls).2.map (fun c => c.isNew) = [true, true, true] ∧
    isCardIdNew freshState.inventory (some "rock-001") = true ∧
    2 ≤ ((openPack testCatalog testRegions testPacks freshState "basic"
        midRolls midRolls midRolls).2.filter (fun c => c.isNew)).length := by
  decide

/-- C4 (amended): in a single openPack batch of 3 cards, every per-card
isNew flag is computed against the inventory as it was before the batch is
merged; consequently when the same card id is drawn more than once within
the batch all of its copies carry the same flag — a never-before-owned
duplicate is flagged new on every copy, not just one. -/
theorem C4_isNew_prebatch (cards : List (String × CardDef))
    (regions : List (String × RegionDef)) (packsData : List (String × List (Rarity × ℚ)))
    (st : GameState) (packType : String) (r1 r2 r3 : CardRolls) :
    (∀ c ∈ (openPack cards regions packsData st packType r1 r2 r3).2,
      c.isNew = isCardIdNew st.inventory c.cardId) ∧
    (∀ c ∈ (openPack cards regions packsData st packType r1 r2 r3).2,
      ∀ c2 ∈ (openPack cards regions packsData st packType r1 r2 r3).2,
        c.cardId = c2.cardId → c.isNew = c2.isNew) := by
  have key : ∀ c ∈ (openPack cards regions packsData st packType r1 r2 r3).2,
      c.isNew = isCardIdNew st.inventory c.cardId := by
    intro c hc
    unfold openPack at hc
    by_cases h0 : jsLeZero (jsGet st.player.packsInventory packType)
    · simp [h0] at hc
    · rw [if_neg (by simpa using h0)] at hc
      cases hp : jsGet packsData packType with
      | none => simp [hp] at hc
      | some rules =>
        simp only [hp, List.mem_cons, List.not_mem_nil, or_false] at hc
        rcases hc with rfl | rfl | rfl <;> simp [genCard]
  refine ⟨key, fun c hc c2 hc2 heq => ?_⟩
  rw [key c hc, key c2 hc2, heq]

unseal Rat.mul Rat.add Rat.inv Rat.sub in
/-- Witness for C4_isNew_prebatch on the fresh-save basic-pack batch. -/
theorem C4_witness :
    (({ cardId := some "rock-001", art := 0, foil := "normal", isNew := true } : RevealCard) ∈
      (openPack testCatalog testRegions testPacks freshState "basic"
        midRolls midRolls midRolls).2) ∧
    ({ cardId := some "rock-001", art := 0, foil := "normal", isNew := true } :
        RevealCard).isNew =
      isCardIdNew freshState.inventory
        ({ cardId := some "rock-001", art := 0, foil := "normal", isNew := true } :
          RevealCard).cardId :=
  ⟨by decide,
   (C4_isNew_prebatch testCatalog testRegions testPacks freshState "basic"
      midRolls midRolls midRolls).1 _ (by decide)⟩

unseal Rat.mul Rat.add Rat.inv Rat.sub in
/-- C5 counterexample: the claim asserts that, for every weighted table,
a draw of r=0 returns the first-listed entry and r=99.999 returns the last
entry of any table summing to 100 or less.  Two tables refute the
universal reading: with weights [99.9995, 0.0005] (sum exactly 100) the
draw 99.999 already exceeds at the FIRST entry, which is returned instead
of the last; and with weights [0, 100] the draw 0 returns the second
entry, not the first-listed one. -/
theorem C5_counterexample :
    getWeightedRandomList [("a", (999995 : ℚ) / 10000), ("b", 5 / 10000)] (99999 / 1000) =
      some "a" ∧
    ([("a", (999995 : ℚ) / 10000), ("b", 5 / 10000)].getLast?.map Prod.fst = some "b") ∧
    takeSum [("a", (999995 : ℚ) / 10000), ("b", 5 / 10000)] 2 = 100 ∧
    getWeightedRandomList [("a", (0 : ℚ)), ("b", 100)] 0 = some "b" ∧
    (some "a" : Option String) ≠ some "b" := by
  decide

/-- takeSum over a cons cell. -/
theorem takeSum_cons {α : Type} (v : α) (w : ℚ) (rest : List (α × ℚ)) (n : Nat) :
    takeSum ((v, w) :: rest) (n + 1) = w + takeSum rest n := by
  simp [takeSum]

/-- takeSum of zero entries. -/
theorem takeSum_zero {α : Type} (pool : List (α × ℚ)) : takeSum pool 0 = 0 := by
  simp [takeSum]

/-- The cumulative loop returns the value at the first index whose running
cumulative weight strictly exceeds the roll. -/
theorem weightedLoop_hit {α : Type} :
    ∀ (pool : List (α × ℚ)) (roll cum : ℚ) (i : Nat) (hi : i < pool.length),
      roll < cum + takeSum pool (i + 1) →
      (∀ j, j < i → cum + takeSum pool (j + 1) ≤ roll) →
      weightedLoop roll cum pool = some (pool.get ⟨i, hi⟩).1 := by
  intro pool
  induction pool with
  | nil => intro roll cum i hi _ _; simp at hi
  | cons p rest ih =>
    obtain ⟨v, w⟩ := p
    intro roll cum i hi h1 h2
    cases i with
    | zero =>
      have hw : roll < cum + w := by
        rw [takeSum_cons, takeSum_zero, add_zero] at h1
        exact h1
      simp [weightedLoop, hw]
    | succ i2 =>
      have h0 : cum + w ≤ roll := by
        have h3 := h2 0 (Nat.succ_pos i2)
        rwa [takeSum_cons, takeSum_zero, add_zero] at h3
      have hni : ¬ roll < cum + w := not_lt.mpr h0
      have hi2 : i2 < rest.length := by simpa using hi
      have g1 : roll < cum + w + takeSum rest (i2 + 1) := by
        rw [takeSum_cons] at h1; linarith
      have g2 : ∀ j, j < i2 → cum + w + takeSum rest (j + 1) ≤ roll := by
        intro j hj
        have h4 := h2 (j + 1) (by omega)
        rw [takeSum_cons] at h4; linarith
      have h5 := ih roll (cum + w) i2 hi2 g1 g2
      simpa [weightedLoop, hni] using h5

/-- The cumulative loop returns none when no running cumulative weight
exceeds the roll. -/
theorem weightedLoop_miss {α : Type} :
    ∀ (pool : List (α × ℚ)) (roll cum : ℚ),
      (∀ i, i < pool.length → cum + takeSum pool (i + 1) ≤ roll) →
      weightedLoop roll cum pool = none := by
  intro pool
  induction pool with
  | nil => intro roll cum _; rfl
  | cons p rest ih =>
    obtain ⟨v, w⟩ := p
    intro roll cum h
    have h0 : cum + w ≤ roll := by
      have h3 := h 0 (by simp)
      rwa [takeSum_cons, takeSum_zero, add_zero] at h3
    simp only [weightedLoop, if_neg (not_lt.mpr h0)]
    apply ih
    intro i hilen
    have h4 := h (i + 1) (by simpa using Nat.succ_lt_succ hilen)
    rw [takeSum_cons] at h4; linarith

/-- With nonnegative weights the running cumulative sums are monotone. -/
theorem takeSum_mono {α : Type} :
    ∀ (pool : List (α × ℚ)), (∀ p ∈ pool, 0 ≤ p.2) →
      ∀ j k, j ≤ k → takeSum pool j ≤ takeSum pool k := by
  intro pool
  induction pool with
  | nil => intro _ j k _; simp [takeSum]
  | cons p rest ih =>
    obtain ⟨v, w⟩ := p
    intro hw j k hjk
    cases j with
    | zero =>
      rw [takeSum_zero]
      unfold takeSum
      refine List.sum_nonneg ?_
      intro x hx
      simp only [List.mem_map] at hx
      obtain ⟨pq, hq, rfl⟩ := hx
      exact hw pq (List.mem_of_mem_take hq)
    | succ j2 =>
      cases k with
      | zero => omega
      | succ k2 =>
        rw [takeSum_cons, takeSum_cons]
        have h5 := ih (fun pq hq => hw pq (List.mem_cons_of_mem _ hq)) j2 k2 (by omega)
        linarith

/-- getLast? of a nonempty list is the element at the final index. -/
theorem getLast?_eq_get {α : Type} (l : List α) (hlen : 0 < l.length) :
    l.getLast? = some (l.get ⟨l.length - 1, by omega⟩) := by
  rw [List.getLast?_eq_getElem?,
    List.getElem?_eq_getElem (show l.length - 1 < l.length by omega)]
  simp

/-- getWeightedRandomList hits the first index whose cumulative weight
exceeds the roll. -/
theorem getWeightedRandomList_hit {α : Type} (pool : List (α × ℚ)) (roll : ℚ) (i : Nat)
    (hi : i < pool.length) (h1 : roll < takeSum pool (i + 1))
    (h2 : ∀ j, j < i → takeSum pool (j + 1) ≤ roll) :
    getWeightedRandomList pool roll = some (pool.get ⟨i, hi⟩).1 := by
  have h3 := weightedLoop_hit pool roll 0 i hi (by rwa [zero_add])
    (fun j hj => by rw [zero_add]; exact h2 j hj)
  simp [getWeightedRandomList, h3]

/-- getWeightedRandomList falls back to the last entry when no cumulative
weight exceeds the roll. -/
theorem getWeightedRandomList_fallback {α : Type} (pool : List (α × ℚ)) (roll : ℚ)
    (h : ∀ i, i < pool.length → takeSum pool (i + 1) ≤ roll) :
    getWeightedRandomList pool roll = pool.getLast?.map Prod.fst := by
  have h3 := weightedLoop_miss pool roll 0 (fun i hi => by rw [zero_add]; exact h i hi)
  simp [getWeightedRandomList, h3]

/-- C5 (amended): for every weighted table and draw, the selector returns
the first entry whose running cumulative weight strictly exceeds the draw,
and the last entry when no cumulative weight does; consequently a draw of
0 returns the first-listed entry whenever the first weight is positive,
and a draw of 99.999 returns the last entry whenever the cumulative weight
before the last entry is at most 99.999 (true of every table shipped in
the program); the sparse rarity-keyed shape (getRandomRarity) is the same
selector run over RARITY_ORDER in rarest-to-commonest order with common as
the failsafe. -/
theorem C5_weighted_selector {α : Type} (pool : List (α × ℚ)) :
    (∀ (roll : ℚ) (i : Nat) (hi : i < pool.length), roll < takeSum pool (i + 1) →
      (∀ j, j < i → takeSum pool (j + 1) ≤ roll) →
      getWeightedRandomList pool roll = some (pool.get ⟨i, hi⟩).1) ∧
    (∀ roll : ℚ, (∀ i, i < pool.length → takeSum pool (i + 1) ≤ roll) →
      getWeightedRandomList pool roll = pool.getLast?.map Prod.fst) ∧
    (∀ (v : α) (w : ℚ) (rest : List (α × ℚ)), pool = (v, w) :: rest → 0 < w →
      getWeightedRandomList pool 0 = some v) ∧
    ((∀ p ∈ pool, 0 ≤ p.2) → 0 < pool.length →
      takeSum pool (pool.length - 1) ≤ 99999 / 1000 →
      getWeightedRandomList pool (99999 / 1000) = pool.getLast?.map Prod.fst) ∧
    (∀ (packRules : List (Rarity × ℚ)) (roll : ℚ),
      getRandomRarity packRules roll =
        (getWeightedRandomList (RARITY_ORDER.map (fun r => (r, lookupChance packRules r)))
          roll).getD Rarity.common) := by
  refine ⟨fun roll i hi => getWeightedRandomList_hit pool roll i hi,
    fun roll => getWeightedRandomList_fallback pool roll, ?_, ?_, ?_⟩
  · rintro v w rest rfl hw
    have h1 : (0 : ℚ) < takeSum ((v, w) :: rest) (0 + 1) := by
      rw [takeSum_cons, takeSum_zero, add_zero]; exact hw
    have h2 := getWeightedRandomList_hit ((v, w) :: rest) 0 0 (by simp) h1
      (fun j hj => absurd hj (Nat.not_lt_zero j))
    simpa using h2
  · intro hw hlen hstl
    by_cases hall : takeSum pool pool.length ≤ 99999 / 1000
    · refine getWeightedRandomList_fallback pool _ ?_
      intro i hi
      exact le_trans (takeSum_mono pool hw (i + 1) pool.length (by omega)) hall
    · have hlast : (99999 / 1000 : ℚ) < takeSum pool (pool.length - 1 + 1) := by
        rw [show pool.length - 1 + 1 = pool.length by omega]
        exact lt_of_not_le hall
      have h3 := getWeightedRandomList_hit pool (99999 / 1000) (pool.length - 1)
        (by omega) hlast
        (fun j hj => le_trans (takeSum_mono pool hw (j + 1) (pool.length - 1) (by omega)) hstl)
      rw [h3, getLast?_eq_get pool hlen, Option.map_some']
  · intro packRules roll
    cases h : weightedLoop roll 0 (RARITY_ORDER.map (fun r => (r, lookupChance packRules r))) with
    | some r => simp [getRandomRarity, getWeightedRandomList, h]
    | none =>
      simp only [getRandomRarity, getWeightedRandomList, h]
      rfl

unseal Rat.mul Rat.add Rat.inv Rat.sub in
/-- Witness for C5_weighted_selector: on the fishing loot table a draw of
99.999 returns the last ("nothing") entry. -/
theorem C5_witness :
    ((∀ p ∈ FISHING_REWARDS.map (fun e => (e, e.chance)), 0 ≤ p.2) ∧
      0 < (FISHING_REWARDS.map (fun e => (e, e.chance))).length ∧
      takeSum (FISHING_REWARDS.map (fun e => (e, e.chance)))
        ((FISHING_REWARDS.map (fun e => (e, e.chance))).length - 1) ≤ 99999 / 1000) ∧
    getWeightedRandomList (FISHING_REWARDS.map (fun e => (e, e.chance))) (99999 / 1000) =
      (FISHING_REWARDS.map (fun e => (e, e.chance))).getLast?.map Prod.fst :=
  ⟨⟨by decide, by decide, by decide⟩,
   (C5_weighted_selector (FISHING_REWARDS.map (fun e => (e, e.chance)))).2.2.2.1
     (by decide) (by decide) (by decide)⟩

/-- jsPick with a draw in [0,1) on a nonempty list lands at a valid index. -/
theorem jsPick_get {α : Type} (l : List α) (q : ℚ) (_h0 : 0 ≤ q) (h1 : q < 1)
    (hl : 0 < l.length) :
    ∃ idx : Fin l.length, jsPick l q = some (l.get idx) := by
  have hcast : (0 : ℚ) < (l.length : ℚ) := by exact_mod_cast hl
  have hflt : ⌊q * (l.length : ℚ)⌋ < (l.length : ℤ) := by
    rw [Int.floor_lt]
    push_cast
    calc q * (l.length : ℚ) < 1 * (l.length : ℚ) := mul_lt_mul_of_pos_right h1 hcast
      _ = (l.length : ℚ) := one_mul _
  have hidx : (⌊q * (l.length : ℚ)⌋).toNat < l.length := by omega
  exact ⟨⟨_, hidx⟩, by simp [jsPick, List.getElem?_eq_getElem hidx]⟩

/-- A successful jsPick returns a member of the list. -/
theorem jsPick_mem {α : Type} {l : List α} {q : ℚ} {a : α} (h : jsPick l q = some a) :
    a ∈ l := by
  unfold jsPick at h
  obtain ⟨hlt, rfl⟩ := List.getElem?_eq_some.mp h
  exact List.getElem_mem hlt

/-- C6: for a rarity with at least one catalog card in an unlocked region,
getRandomCardOfRarity returns a card id drawn from exactly that candidate
set; when the candidate set is empty it draws from the unlocked common
fallback; and the result is never a card from a locked region. -/
theorem C6_card_resolver (cards : List (String × CardDef)) (regions : List (String × RegionDef))
    (st : GameState) (rarity : Rarity) (q : ℚ) (h0 : 0 ≤ q) (h1 : q < 1) :
    (rarityCandidates cards regions st rarity ≠ [] →
      ∃ p ∈ rarityCandidates cards regions st rarity,
        getRandomCardOfRarity cards regions st rarity q = some p.1) ∧
    (rarityCandidates cards regions st rarity = [] →
      commonFallback cards regions st ≠ [] →
      ∃ p ∈ commonFallback cards regions st,
        getRandomCardOfRarity cards regions st rarity q = some p.1) ∧
    (∀ cid, getRandomCardOfRarity cards regions st rarity q = some cid →
      ∃ d, (cid, d) ∈ cards ∧ d.region ∈ getUnlockedRegions regions st) := by
  refine ⟨?_, ?_, ?_⟩
  · intro hne
    obtain ⟨idx, hidx⟩ := jsPick_get (rarityCandidates cards regions st rarity) q h0 h1
      (List.length_pos.mpr hne)
    refine ⟨(rarityCandidates cards regions st rarity).get idx, List.get_mem _ _ idx.2, ?_⟩
    simp [getRandomCardOfRarity, hne, hidx]
  · intro hemp hne
    obtain ⟨idx, hidx⟩ := jsPick_get (commonFallback cards regions st) q h0 h1
      (List.length_pos.mpr hne)
    refine ⟨(commonFallback cards regions st).get idx, List.get_mem _ _ idx.2, ?_⟩
    simp [getRandomCardOfRarity, hemp, hidx]
  · intro cid hcid
    unfold getRandomCardOfRarity at hcid
    by_cases hemp : rarityCandidates cards regions st rarity = []
    · rw [if_pos hemp] at hcid
      obtain ⟨p, hp, hfst⟩ := Option.map_eq_some'.mp hcid
      have hpm := jsPick_mem hp
      unfold commonFallback at hpm
      rw [List.mem_filter, decide_eq_true_eq] at hpm
      exact ⟨p.2, by rw [← hfst]; simpa using hpm.1, hpm.2.2⟩
    · rw [if_neg hemp] at hcid
      obtain ⟨p, hp, hfst⟩ := Option.map_eq_some'.mp hcid
      have hpm := jsPick_mem hp
      unfold rarityCandidates at hpm
      rw [List.mem_filter, decide_eq_true_eq] at hpm
      exact ⟨p.2, by rw [← hfst]; simpa using hpm.1, hpm.2.2⟩

/-- Witness for C6_card_resolver: the fresh save with the one-card catalog
resolves a common card from the candidate set. -/
theorem C6_witness :
    rarityCandidates testCatalog testRegions freshState .common ≠ [] ∧
    ∃ p ∈ rarityCandidates testCatalog testRegions freshState .common,
      getRandomCardOfRarity testCatalog testRegions freshState .common 0 = some p.1 :=
  ⟨by decide,
   (C6_card_resolver testCatalog testRegions freshState .common 0 (by norm_num)
      (by norm_num)).1 (by decide)⟩

/-- C7: a region id is in getUnlockedRegions exactly when some entry of the
region catalog carries it with a satisfied unlock rule (type packs with
packsOpened at or above the value, or type unique with the
variant-independent distinct-card count at or above the value); a region
with rule {type: packs, value: 0} is unlocked in every state. -/
theorem C7_region_unlock (regions : List (String × RegionDef)) (st : GameState) (rid : String) :
    (rid ∈ getUnlockedRegions regions st ↔
      ∃ rd, (rid, rd) ∈ regions ∧
        ((rd.unlockType = .packs ∧ rd.value ≤ st.player.packsOpened) ∨
         (rd.unlockType = .unique ∧ rd.value ≤ getUniqueCardCount st.inventory))) ∧
    ((rid, (⟨.packs, 0⟩ : RegionDef)) ∈ regions → rid ∈ getUnlockedRegions regions st) := by
  have hmain : rid ∈ getUnlockedRegions regions st ↔
      ∃ rd, (rid, rd) ∈ regions ∧
        ((rd.unlockType = .packs ∧ rd.value ≤ st.player.packsOpened) ∨
         (rd.unlockType = .unique ∧ rd.value ≤ getUniqueCardCount st.inventory)) := by
    unfold getUnlockedRegions
    rw [List.mem_map]
    constructor
    · rintro ⟨p, hp, rfl⟩
      rw [List.mem_filter] at hp
      obtain ⟨hmem, hcond⟩ := hp
      refine ⟨p.2, by simpa using hmem, ?_⟩
      cases ht : p.2.unlockType with
      | packs =>
        simp only [regionUnlocked, ht, decide_eq_true_eq] at hcond
        exact Or.inl ⟨rfl, hcond⟩
      | unique =>
        simp only [regionUnlocked, ht, decide_eq_true_eq] at hcond
        exact Or.inr ⟨rfl, hcond⟩
    · rintro ⟨rd, hmem, hcond⟩
      refine ⟨(rid, rd), ?_, rfl⟩
      rw [List.mem_filter]
      refine ⟨hmem, ?_⟩
      rcases hcond with ⟨ht, hv⟩ | ⟨ht, hv⟩ <;>
        simp only [regionUnlocked, ht, decide_eq_true_eq] <;> exact hv
  exact ⟨hmain, fun hm => hmain.mpr ⟨⟨.packs, 0⟩, hm, Or.inl ⟨rfl, Nat.zero_le _⟩⟩⟩

/-- Witness for C7_region_unlock: the starter region of the test catalog is
unlocked on a fresh save. -/
theorem C7_witness :
    (("riverbed", (⟨.packs, 0⟩ : RegionDef)) ∈ testRegions) ∧
    "riverbed" ∈ getUnlockedRegions testRegions freshState :=
  ⟨by decide, (C7_region_unlock testRegions freshState "riverbed").2 (by decide)⟩

/-- bestReward in closed form over the concrete PACK_THRESHOLDS list. -/
theorem bestReward_closed_form (p : Int) :
    bestReward p =
      if 1000 ≤ p then some ⟨"collector", 1000⟩
      else if 250 ≤ p then some ⟨"deluxe", 250⟩
      else if 100 ≤ p then some ⟨"advanced", 100⟩
      else if 30 ≤ p then some ⟨"explorer", 30⟩
      else if 10 ≤ p then some ⟨"basic", 10⟩
      else none := by
  simp [bestReward, PACK_THRESHOLDS, bestRewardLoop]

/-- C9: bestReward is monotone in the point total with none below every
threshold, always returns the highest threshold the points meet or exceed,
and on the concrete thresholds maps 100 to advanced, 99 to explorer and 9
to none. -/
theorem C9_bestReward_monotone :
    (∀ p1 p2 : Int, p2 ≤ p1 → thresholdValue (bestReward p2) ≤ thresholdValue (bestReward p1)) ∧
    (∀ (p : Int) (e : PackThreshold), bestReward p = some e →
      e ∈ PACK_THRESHOLDS ∧ e.points ≤ p ∧
      ∀ e2 ∈ PACK_THRESHOLDS, e2.points ≤ p → e2.points ≤ e.points) ∧
    (∀ p : Int, bestReward p = none → ∀ e ∈ PACK_THRESHOLDS, p < e.points) ∧
    bestReward 100 = some ⟨"advanced", 100⟩ ∧
    bestReward 99 = some ⟨"explorer", 30⟩ ∧
    bestReward 9 = none := by
  refine ⟨?_, ?_, ?_, by decide, by decide, by decide⟩
  · intro p1 p2 h
    rw [bestReward_closed_form, bestReward_closed_form]
    split_ifs <;> simp [thresholdValue] <;> omega
  · intro p e he
    have hmemAll : ∀ e2 ∈ PACK_THRESHOLDS,
        e2.points = 1000 ∨ e2.points = 250 ∨ e2.points = 100 ∨ e2.points = 30 ∨
          e2.points = 10 := by
      intro e2 he2
      simp only [PACK_THRESHOLDS, List.mem_cons, List.not_mem_nil, or_false] at he2
      rcases he2 with rfl | rfl | rfl | rfl | rfl <;> simp
    have hcf := bestReward_closed_form p
    rw [he] at hcf
    split_ifs at hcf with hc1 hc2 hc3 hc4 hc5 <;>
      simp only [Option.some.injEq, reduceCtorEq] at hcf
    · subst hcf
      refine ⟨by decide, hc1, ?_⟩
      intro e2 he2 hle
      show e2.points ≤ 1000
      rcases hmemAll e2 he2 with h | h | h | h | h <;> omega
    · subst hcf
      refine ⟨by decide, hc2, ?_⟩
      intro e2 he2 hle
      show e2.points ≤ 250
      rcases hmemAll e2 he2 with h | h | h | h | h <;> omega
    · subst hcf
      refine ⟨by decide, hc3, ?_⟩
      intro e2 he2 hle
      show e2.points ≤ 100
      rcases hmemAll e2 he2 with h | h | h | h | h <;> omega
    · subst hcf
      refine ⟨by decide, hc4, ?_⟩
      intro e2 he2 hle
      show e2.points ≤ 30
      rcases hmemAll e2 he2 with h | h | h | h | h <;> omega
    · subst hcf
      refine ⟨by decide, hc5, ?_⟩
      intro e2 he2 hle
      show e2.points ≤ 10
      rcases hmemAll e2 he2 with h | h | h | h | h <;> omega
  · intro p hp e he
    rw [bestReward_closed_form] at hp
    simp only [PACK_THRESHOLDS, List.mem_cons, List.not_mem_nil, or_false] at he
    split_ifs at hp with hc1 hc2 hc3 hc4 hc5
    rcases he with rfl | rfl | rfl | rfl | rfl
    · show p < 1000; omega
    · show p < 250; omega
    · show p < 100; omega
    · show p < 30; omega
    · show p < 10; omega

/-- Witness for C9_bestReward_monotone: monotonicity applied at 50 ≤ 100. -/
theorem C9_witness :
    ((50 : Int) ≤ 100) ∧
    thresholdValue (bestReward 50) ≤ thresholdValue (bestReward 100) :=
  ⟨by decide, C9_bestReward_monotone.1 100 50 (by decide)⟩

/-- incFirstMatch leaves every entry that does not match the new card's
(cardId, art, foil) key untouched, index by index. -/
theorem incFirstMatch_get_of_ne (c : NewCard) :
    ∀ (inv : List InvCard) (i : Nat) (e : InvCard), inv[i]? = some e →
      ¬(e.cardId = c.cardId ∧ e.art = c.art ∧ e.foil = c.foil) →
      (incFirstMatch inv c)[i]? = some e := by
  intro inv
  induction inv with
  | nil => intro i e h _; simp at h
  | cons a rest ih =>
    intro i e h hne
    by_cases ha : a.cardId = c.cardId ∧ a.art = c.art ∧ a.foil = c.foil
    · have hinc : incFirstMatch (a :: rest) c = { a with count := a.count + 1 } :: rest := by
        simp [incFirstMatch, ha]
      cases i with
      | zero =>
        simp only [List.getElem?_cons_zero, Option.some.injEq] at h
        exact absurd (h ▸ ha) hne
      | succ i2 =>
        rw [hinc, List.getElem?_cons_succ]
        rw [List.getElem?_cons_succ] at h
        exact h
    · have hinc : incFirstMatch (a :: rest) c = a :: incFirstMatch rest c := by
        simp [incFirstMatch, ha]
      cases i with
      | zero =>
        rw [hinc, List.getElem?_cons_zero]
        rw [List.getElem?_cons_zero] at h
        exact h
      | succ i2 =>
        rw [hinc, List.getElem?_cons_succ]
        rw [List.getElem?_cons_succ] at h
        exact ih i2 e h hne

/-- incFirstMatch always leaves an entry carrying exactly the new card's
(cardId, art, foil) key: the bumped first match or the appended fresh
entry. -/
theorem incFirstMatch_exists (c : NewCard) :
    ∀ inv : List InvCard, ∃ (k : Nat) (e2 : InvCard), (incFirstMatch inv c)[k]? = some e2 ∧
      e2.cardId = c.cardId ∧ e2.art = c.art ∧ e2.foil = c.foil := by
  intro inv
  induction inv with
  | nil => exact ⟨0, ⟨c.cardId, c.art, c.foil, 1⟩, by simp [incFirstMatch], rfl, rfl, rfl⟩
  | cons a rest ih =>
    by_cases ha : a.cardId = c.cardId ∧ a.art = c.art ∧ a.foil = c.foil
    · exact ⟨0, { a with count := a.count + 1 }, by simp [incFirstMatch, ha],
        ha.1, ha.2.1, ha.2.2⟩
    · obtain ⟨k, e2, h1, h2, h3, h4⟩ := ih
      refine ⟨k + 1, e2, ?_, h2, h3, h4⟩
      have hinc : incFirstMatch (a :: rest) c = a :: incFirstMatch rest c := by
        simp [incFirstMatch, ha]
      rw [hinc, List.getElem?_cons_succ]
      exact h1

/-- C10: a card granted through the fishing / sifting card-reward branch is
stored with art and foil undefined (none); since inventory stacking
matches on exact (cardId, art, foil) equality, it never merges with a
pack-acquired base-art copy (art 0, foil "normal") of the same card id —
that entry stays untouched at its index — and the same card id then
occupies two distinct inventory entries. -/
theorem C10_minigame_entry_split (st : GameState) (cid : String) (j : Nat) (e : InvCard)
    (hj : st.inventory[j]? = some e) (_hid : e.cardId = some cid)
    (ha : e.art = some 0) (_hf : e.foil = some "normal") :
    ((grantMinigameCard st (some cid)).inventory[j]? = some e) ∧
    ∃ (k : Nat) (e2 : InvCard), (grantMinigameCard st (some cid)).inventory[k]? = some e2 ∧
      e2.cardId = some cid ∧ e2.art = none ∧ e2.foil = none ∧ k ≠ j := by
  have hinv : (grantMinigameCard st (some cid)).inventory =
      incFirstMatch st.inventory { cardId := some cid, art := none, foil := none } := rfl
  have hne : ¬(e.cardId = (some cid : Option String) ∧ e.art = (none : Option Nat) ∧
      e.foil = (none : Option String)) := by
    intro hcon
    rw [ha] at hcon
    exact Option.noConfusion hcon.2.1
  have hkeep := incFirstMatch_get_of_ne
    { cardId := some cid, art := none, foil := none } st.inventory j e hj hne
  refine ⟨by rw [hinv]; exact hkeep, ?_⟩
  obtain ⟨k, e2, h1, h2, h3, h4⟩ :=
    incFirstMatch_exists { cardId := some cid, art := none, foil := none } st.inventory
  refine ⟨k, e2, by rw [hinv]; exact h1, h2, h3, h4, ?_⟩
  intro hkj
  rw [hkj, hkeep] at h1
  injection h1 with h5
  rw [h5] at ha
  rw [h3] at ha
  exact Option.noConfusion ha

/-- Witness for C10_minigame_entry_split: granting a fished rock-001 to the
state already owning twelve base-art copies. -/
theorem C10_witness :
    (dupState.inventory[0]? =
      some (⟨some "rock-001", some 0, some "normal", 12⟩ : InvCard)) ∧
    (((grantMinigameCard dupState (some "rock-001")).inventory[0]? =
        some (⟨some "rock-001", some 0, some "normal", 12⟩ : InvCard)) ∧
      ∃ (k : Nat) (e2 : InvCard),
        (grantMinigameCard dupState (some "rock-001")).inventory[k]? = some e2 ∧
          e2.cardId = some "rock-001" ∧ e2.art = none ∧ e2.foil = none ∧ k ≠ 0) :=
  ⟨by decide,
   C10_minigame_entry_split dupState "rock-001" 0
     ⟨some "rock-001", some 0, some "normal", 12⟩ (by decide) rfl rfl rfl⟩

/-- The first selection entry with a given key splits the list in two; the
JS pattern "find, then mutate the found object" rewrites exactly that
entry, whatever the mutation. -/
theorem updFirstSel_decomp :
    ∀ (sel : List SelEntry) (k : Option String × Option Nat × Option String)
      (entry : SelEntry),
      sel.find? (fun s => decide (selKey s = k)) = some entry →
      ∃ pre post, sel = pre ++ entry :: post ∧ (∀ x ∈ pre, selKey x ≠ k) ∧
        selKey entry = k ∧
        ∀ f : SelEntry → SelEntry, updFirstSel sel k f = pre ++ f entry :: post := by
  intro sel
  induction sel with
  | nil => intro k entry h; simp at h
  | cons s rest ih =>
    intro k entry h
    by_cases hs : selKey s = k
    · rw [List.find?_cons_of_pos _ (by simpa using hs)] at h
      injection h with h
      subst h
      exact ⟨[], rest, rfl, by simp, hs, fun f => by simp [updFirstSel, hs]⟩
    · rw [List.find?_cons_of_neg _ (by simpa using hs)] at h
      obtain ⟨pre, post, hdec, hpre, hkey, hupd⟩ := ih k entry h
      refine ⟨s :: pre, post, by rw [List.cons_append, hdec], ?_, hkey, ?_⟩
      · intro x hx
        rcases List.mem_cons.mp hx with rfl | hx2
        · exact hs
        · exact hpre x hx2
      · intro f
        simp [updFirstSel, hs, hupd f]

/-- The empty selection is valid for any inventory. -/
theorem selValid_nil (inv : List InvCard) : SelValid inv [] :=
  ⟨by simp, fun s hs => absurd hs (List.not_mem_nil s)⟩

/-- toggleCardForConversion preserves selection validity: keys stay
pairwise distinct and every selected count stays within 1..ownedCount-1
of its first-matching inventory entry. -/
theorem toggle_preserves_SelValid (inv : List InvCard) (sel : List SelEntry)
    (k : Option String × Option Nat × Option String) (h : SelValid inv sel) :
    SelValid inv (toggleCardForConversion inv sel k) := by
  obtain ⟨hnd, hval⟩ := h
  unfold toggleCardForConversion
  split
  · exact ⟨hnd, hval⟩
  next playerCard hfi =>
    split
    next hcnt => exact ⟨hnd, hval⟩
    next hcnt =>
      split
      next hfs =>
        have hknotin : ∀ x ∈ sel, selKey x ≠ k := by
          intro x hx
          have h2 := List.find?_eq_none.mp hfs x hx
          simpa using h2
        constructor
        · rw [List.map_append]
          refine List.Nodup.append hnd (by simp) ?_
          intro a ha hb
          simp only [List.map_cons, List.map_nil, List.mem_singleton] at hb
          obtain ⟨x, hx, rfl⟩ := List.mem_map.mp ha
          exact hknotin x hx (by simpa [selKey] using hb)
        · intro s hs
          rcases List.mem_append.mp hs with hs2 | hs2
          · exact hval s hs2
          · simp only [List.mem_singleton] at hs2
            subst hs2
            refine ⟨playerCard, ?_, ?_, ?_⟩
            · simpa [selKey] using hfi
            · show (1 : Int) ≤ 1
              norm_num
            · show (1 : Int) + 1 ≤ playerCard.count
              omega
      next entry hfs =>
        obtain ⟨pre, post, hdec, hpre, hkey, hupd⟩ := updFirstSel_decomp sel k entry hfs
        have hentrymem : entry ∈ sel := by rw [hdec]; simp
        obtain ⟨m, hm, hb1, hb2⟩ := hval entry hentrymem
        have hmp : m = playerCard := by
          rw [hkey] at hm
          rw [hfi] at hm
          injection hm with hm
          exact hm.symm
        subst hmp
        split
        next hlt =>
          rw [hupd (fun s => { s with count := s.count + 1 })]
          constructor
          · have hmap : (pre ++ { entry with count := entry.count + 1 } :: post).map selKey =
                sel.map selKey := by
              rw [hdec]
              simp [selKey]
            rw [hmap]
            exact hnd
          · intro s hs
            rcases List.mem_append.mp hs with hs2 | hs2
            · exact hval s (by rw [hdec]; exact List.mem_append_left _ hs2)
            · rcases List.mem_cons.mp hs2 with rfl | hs3
              · refine ⟨m, ?_, ?_, ?_⟩
                · have hkey2 : selKey { entry with count := entry.count + 1 } = k := hkey
                  rw [hkey2]
                  exact hfi
                · show (1 : Int) ≤ entry.count + 1
                  omega
                · show entry.count + 1 + 1 ≤ m.count
                  omega
              · exact hval s
                  (by rw [hdec]; exact List.mem_append_right _ (List.mem_cons_of_mem _ hs3))
        next hlt =>
          rw [hupd (fun s => { s with count := 0 })]
          constructor
          · have hsub : List.Sublist
                ((pre ++ { entry with count := 0 } :: post).filter
                  (fun s => decide (0 < s.count)))
                (pre ++ { entry with count := 0 } :: post) := List.filter_sublist _
            have hsubmap := List.Sublist.map selKey hsub
            have hmap : (pre ++ { entry with count := 0 } :: post).map selKey =
                sel.map selKey := by
              rw [hdec]
              simp [selKey]
            rw [hmap] at hsubmap
            exact List.Nodup.sublist hsubmap hnd
          · intro s hs
            rw [List.mem_filter] at hs
            obtain ⟨hs2, hspos⟩ := hs
            rw [decide_eq_true_eq] at hspos
            rcases List.mem_append.mp hs2 with hs3 | hs3
            · exact hval s (by rw [hdec]; exact List.mem_append_left _ hs3)
            · rcases List.mem_cons.mp hs3 with rfl | hs4
              · simp at hspos
              · exact hval s
                  (by rw [hdec]; exact List.mem_append_right _ (List.mem_cons_of_mem _ hs4))

/-- Any selection built by clicking through the converter grid against a
fixed inventory is valid. -/
theorem foldl_toggle_SelValid (inv : List InvCard)
    (ks : List (Option String × Option Nat × Option String)) :
    SelValid inv (ks.foldl (toggleCardForConversion inv) []) := by
  have hgen : ∀ sel, SelValid inv sel →
      SelValid inv (ks.foldl (toggleCardForConversion inv) sel) := by
    induction ks with
    | nil => intro sel h2; exact h2
    | cons k rest ih =>
      intro sel h2
      rw [List.foldl_cons]
      exact ih _ (toggle_preserves_SelValid inv sel k h2)
  exact hgen [] (selValid_nil inv)

/-- decFirstMatch only alters the count of the first entry matching the
selection's key, so find? for any other key is unchanged. -/
theorem decFirstMatch_find?_ne (s : SelEntry)
    (k : Option String × Option Nat × Option String) (hk : k ≠ selKey s) :
    ∀ inv : List InvCard,
      (decFirstMatch inv s).find? (fun e => decide (invKey e = k)) =
        inv.find? (fun e => decide (invKey e = k)) := by
  intro inv
  induction inv with
  | nil => rfl
  | cons e rest ih =>
    by_cases he : e.cardId = s.cardId ∧ e.art = s.art ∧ e.foil = s.foil
    · have hdec : decFirstMatch (e :: rest) s =
          { e with count := e.count - s.count } :: rest := by
        simp [decFirstMatch, he]
      have hek : invKey e = selKey s := by
        simp [invKey, selKey, he.1, he.2.1, he.2.2]
      have hno : ¬ invKey e = k := fun hcon => hk (hcon ▸ hek)
      rw [hdec, List.find?_cons_of_neg _ (by simpa [invKey] using hno),
        List.find?_cons_of_neg _ (by simpa using hno)]
    · have hdec : decFirstMatch (e :: rest) s = e :: decFirstMatch rest s := by
        simp [decFirstMatch, he]
      rw [hdec]
      by_cases hek : invKey e = k
      · rw [List.find?_cons_of_pos _ (by simpa using hek),
          List.find?_cons_of_pos _ (by simpa using hek)]
      · rw [List.find?_cons_of_neg _ (by simpa using hek),
          List.find?_cons_of_neg _ (by simpa using hek)]
        exact ih

/-- Pointwise behaviour of decFirstMatch: every index keeps its key, and
its entry is unchanged unless it is the first match of the selection's
key, in which case the selected count is subtracted from it. -/
theorem decFirstMatch_get (s : SelEntry) :
    ∀ (inv : List InvCard) (i : Nat) (e : InvCard), inv[i]? = some e →
      ∃ e2, (decFirstMatch inv s)[i]? = some e2 ∧ invKey e2 = invKey e ∧
        (e2 = e ∨ (inv.find? (fun x => decide (invKey x = selKey s)) = some e ∧
          e2 = { e with count := e.count - s.count })) := by
  intro inv
  induction inv with
  | nil => intro i e h; simp at h
  | cons a rest ih =>
    intro i e h
    by_cases ha : a.cardId = s.cardId ∧ a.art = s.art ∧ a.foil = s.foil
    · have hdec : decFirstMatch (a :: rest) s =
          { a with count := a.count - s.count } :: rest := by
        simp [decFirstMatch, ha]
      have hak : invKey a = selKey s := by
        simp [invKey, selKey, ha.1, ha.2.1, ha.2.2]
      cases i with
      | zero =>
        simp only [List.getElem?_cons_zero, Option.some.injEq] at h
        subst h
        refine ⟨{ a with count := a.count - s.count },
          by rw [hdec, List.getElem?_cons_zero], rfl, Or.inr ⟨?_, rfl⟩⟩
        exact List.find?_cons_of_pos _ (by simpa using hak)
      | succ i2 =>
        rw [List.getElem?_cons_succ] at h
        refine ⟨e, ?_, rfl, Or.inl rfl⟩
        rw [hdec, List.getElem?_cons_succ]
        exact h
    · have hdec : decFirstMatch (a :: rest) s = a :: decFirstMatch rest s := by
        simp [decFirstMatch, ha]
      have hak : ¬ invKey a = selKey s := by
        simpa [invKey, selKey] using ha
      cases i with
      | zero =>
        simp only [List.getElem?_cons_zero, Option.some.injEq] at h
        subst h
        exact ⟨a, by rw [hdec, List.getElem?_cons_zero], rfl, Or.inl rfl⟩
      | succ i2 =>
        rw [List.getElem?_cons_succ] at h
        obtain ⟨e2, h1, h2, h3⟩ := ih i2 e h
        refine ⟨e2, ?_, h2, ?_⟩
        · rw [hdec, List.getElem?_cons_succ]
          exact h1
        · rcases h3 with h3 | ⟨hf, h4⟩
          · exact Or.inl h3
          · refine Or.inr ⟨?_, h4⟩
            rw [List.find?_cons_of_neg _ (by simpa using hak)]
            exact hf

/-- Folding the confirmConversion decrement over a valid selection keeps
every inventory entry's key, and keeps its count within the floor: an
entry is either untouched or was a multi-copy entry whose count stays
between 1 and its original value. -/
theorem decFold_invariant :
    ∀ (sel : List SelEntry) (inv0 inv : List InvCard), InvRel inv0 inv →
      SelValid inv sel → InvRel inv0 (sel.foldl decFirstMatch inv) := by
  intro sel
  induction sel with
  | nil => intro inv0 inv hrel _; exact hrel
  | cons s rest ih =>
    intro inv0 inv hrel hval
    obtain ⟨hnd, hv⟩ := hval
    obtain ⟨m, hm, hs1, hs2⟩ := hv s (List.mem_cons_self s rest)
    rw [List.foldl_cons]
    refine ih inv0 (decFirstMatch inv s) ?_ ?_
    · intro i e0 h0
      obtain ⟨e, he, hk, hd⟩ := hrel i e0 h0
      obtain ⟨e2, he2, hk2, hd2⟩ := decFirstMatch_get s inv i e he
      refine ⟨e2, he2, hk2.trans hk, ?_⟩
      rcases hd2 with rfl | ⟨hf, rfl⟩
      · exact hd
      · have hem : m = e := by
          rw [hm] at hf
          exact Option.some.inj hf
        subst hem
        rcases hd with rfl | ⟨hc2, hc3, hc4⟩
        · refine Or.inr ⟨by omega, ?_, ?_⟩
          · show 1 ≤ m.count - s.count
            omega
          · show m.count - s.count ≤ m.count
            omega
        · refine Or.inr ⟨hc2, ?_, ?_⟩
          · show 1 ≤ m.count - s.count
            omega
          · show m.count - s.count ≤ e0.count
            omega
    · constructor
      · rw [List.map_cons] at hnd
        exact (List.nodup_cons.mp hnd).2
      · intro s2 hs2m
        obtain ⟨m2, hm2f, ha2, hb2⟩ := hv s2 (List.mem_cons_of_mem s hs2m)
        refine ⟨m2, ?_, ha2, hb2⟩
        rw [decFirstMatch_find?_ne s (selKey s2) ?_ inv]
        · exact hm2f
        · intro hcon
          rw [List.map_cons] at hnd
          have hnotin : selKey s ∉ rest.map selKey := (List.nodup_cons.mp hnd).1
          exact hnotin (hcon ▸ List.mem_map_of_mem selKey hs2m)

/-- addPackToInventory never touches the card inventory. -/
theorem addPackToInventory_inventory (st : GameState) (p : String) (c : Int) :
    (addPackToInventory st p c).inventory = st.inventory := by
  unfold addPackToInventory
  cases hj : jsGet st.player.packsInventory p <;> simp [hj]

/-- confirmConversion either aborts (no catalog entry for a selected card,
or no threshold reached) leaving the inventory untouched, or applies the
decrement fold of the selection to the inventory. -/
theorem confirmConversion_inventory (cards : List (String × CardDef)) (st : GameState)
    (sel : List SelEntry) :
    (confirmConversion cards st sel).1.inventory = st.inventory ∨
    (confirmConversion cards st sel).1.inventory = sel.foldl decFirstMatch st.inventory := by
  unfold confirmConversion
  split
  · exact Or.inl rfl
  split
  · exact Or.inl rfl
  next pack _ =>
    refine Or.inr ?_
    show (addPackToInventory { st with inventory := sel.foldl decFirstMatch st.inventory }
      pack.name 1).inventory = sel.foldl decFirstMatch st.inventory
    rw [addPackToInventory_inventory]

/-- C8: for every inventory and every conversion selection buildable
through the selection interface (a sequence of converter-grid clicks on a
fixed inventory, so each selected count is capped at ownedCount - 1 and
count-1 entries are not selectable), confirming the conversion leaves
every inventory entry at its floor: an entry with count exactly 1 is
untouched, and no entry with count 1 or more drops below 1. -/
theorem C8_conversion_floor (cards : List (String × CardDef)) (st : GameState)
    (ks : List (Option String × Option Nat × Option String)) (i : Nat) (e : InvCard)
    (he : st.inventory[i]? = some e) :
    ∃ e2, (confirmConversion cards st
        (ks.foldl (toggleCardForConversion st.inventory) [])).1.inventory[i]? = some e2 ∧
      invKey e2 = invKey e ∧ (e.count = 1 → e2 = e) ∧ (1 ≤ e.count → 1 ≤ e2.count) := by
  have hvalid := foldl_toggle_SelValid st.inventory ks
  rcases confirmConversion_inventory cards st
      (ks.foldl (toggleCardForConversion st.inventory) []) with hres | hres
  · rw [hres]
    exact ⟨e, he, rfl, fun _ => rfl, fun h2 => h2⟩
  · rw [hres]
    have hrel := decFold_invariant (ks.foldl (toggleCardForConversion st.inventory) [])
      st.inventory st.inventory (fun i2 e0 h0 => ⟨e0, h0, rfl, Or.inl rfl⟩) hvalid
    obtain ⟨e2, h1, h2, h3⟩ := hrel i e he
    refine ⟨e2, h1, h2, ?_, ?_⟩
    · intro hc1
      rcases h3 with rfl | ⟨hc2, _, _⟩
      · rfl
      · omega
    · intro hge
      rcases h3 with rfl | ⟨_, hc3, _⟩
      · exact hge
      · exact hc3

/-- Witness for C8_conversion_floor: selecting ten of the twelve owned
copies of rock-001 and confirming leaves the entry at or above one copy. -/
theorem C8_witness :
    (dupState.inventory[0]? =
      some (⟨some "rock-001", some 0, some "normal", 12⟩ : InvCard)) ∧
    ∃ e2, (confirmConversion testCatalog dupState
        ((List.replicate 10 ((some "rock-001" : Option String), (some 0 : Option Nat),
          (some "normal" : Option String))).foldl
          (toggleCardForConversion dupState.inventory) [])).1.inventory[0]? = some e2 ∧
      invKey e2 = invKey (⟨some "rock-001", some 0, some "normal", 12⟩ : InvCard) ∧
      ((⟨some "rock-001", some 0, some "normal", 12⟩ : InvCard).count = 1 →
        e2 = ⟨some "rock-001", some 0, some "normal", 12⟩) ∧
      (1 ≤ (⟨some "rock-001", some 0, some "normal", 12⟩ : InvCard).count →
        1 ≤ e2.count) :=
  ⟨by decide,
   C8_conversion_floor testCatalog dupState
     (List.replicate 10 ((some "rock-001" : Option String), (some 0 : Option Nat),
       (some "normal" : Option String))) 0
     ⟨some "rock-001", some 0, some "normal", 12⟩ (by decide)⟩

end RockGame
